import Mathlib

/-!
Verification development for the pdf-remediation batch pipeline.

Shallow embedding of the orchestration and reporting code:
  - src/pdf_remediation/utilities/PDFix.py   (GetPageCount, Fix)
  - src/pdf_remediation/utilities/VeraPDF.py (runJavaValidation, parseValidationReport, validatePdf)
  - src/pdf_remediation/Fix.py, Validate.py  (driver dispatch and page-count summation)
  - src/pdf_remediation/Report.py            (XML aggregation, artifact writers, HTML guard)

External engines (the PDFix SDK, the Java validator process, the filesystem)
are modelled as explicit oracle arguments describing their observable outcome;
everything the Python code itself does with those outcomes is translated
line by line. Python exceptions are modelled with Except/Option: an
`Except.error` or `some exc` value means the Python call raises.
-/

namespace PdfRemediation

/-! ## Python-semantics string helpers

The Python string methods the pipeline uses are re-implemented here over the
character list of the string, so that every definition evaluates inside the
kernel. The inputs the pipeline feeds them (status attributes, clause ids,
count fields, paths) are ASCII, where these match CPython. -/

/-- Python `str.lower()` (ASCII range, which covers the status attributes the
code lowercases). -/
def pyLower (s : String) : String :=
  ⟨s.data.map Char.toLower⟩

/-- Python `str.strip()`: drop leading and trailing whitespace. -/
def pyStrip (s : String) : String :=
  ⟨((s.data.dropWhile Char.isWhitespace).reverse.dropWhile Char.isWhitespace).reverse⟩

/-- Python `a or b` for an optional string `a`: both `None` and the empty
string are falsy, so they fall through to `b`. -/
def pyOrStr (a : Option String) (b : String) : String :=
  match a with
  | none => b
  | some s => if s = "" then b else s

/-- Digit-list accumulator of `pyInt`: all remaining characters must be
decimal digits. -/
def digitsLoop : List Char → Nat → Option Nat
  | [], acc => some acc
  | c :: cs, acc => if c.isDigit then digitsLoop cs (acc * 10 + (c.toNat - 48)) else none

/-- The digits of a Python int literal: nonempty and all decimal. -/
def digitsToNat : List Char → Option Nat
  | [] => none
  | c :: cs => digitsLoop (c :: cs) 0

/-- Python `int(s)` on a string: surrounding whitespace ignored, one optional
sign, decimal digits; `none` models a raised ValueError. This covers the
count fields the pipeline itself writes and reads back. -/
def pyInt (s : String) : Option Int :=
  match (pyStrip s).data with
  | '+' :: rest => (digitsToNat rest).map Int.ofNat
  | '-' :: rest => (digitsToNat rest).map (fun n => -(n : Int))
  | cs => (digitsToNat cs).map Int.ofNat

/-- Python `str.split("/")[-1]`, also used for `os.path.basename` on the
forward-slash paths the pipeline builds: the part after the last slash. -/
def lastPathComponent (p : String) : String :=
  ⟨((p.data.reverse.takeWhile (fun c => c ≠ '/'))).reverse⟩

/-- `os.path.basename` as used by the report writers (forward-slash paths). -/
def osBasename (p : String) : String :=
  lastPathComponent p

/-- Python `str.startswith`. -/
def pyStartsWith (s pre : String) : Bool :=
  pre.data.isPrefixOf s.data

/-- One fuel-counted pass of Python `str.replace`: replace non-overlapping
occurrences of `pat` left to right. The fuel is the input length; with a
nonempty pattern every step consumes at least one character. -/
def replaceFuel (pat rep : List Char) : Nat → List Char → List Char
  | 0, s => s
  | _ + 1, [] => []
  | fuel + 1, c :: cs =>
    if pat.isPrefixOf (c :: cs) then rep ++ replaceFuel pat rep fuel (cs.drop (pat.length - 1))
    else c :: replaceFuel pat rep fuel cs

/-- Python `s.replace(pat, rep)` for a nonempty pattern (the directory
prefixes the pipeline strips are never empty). -/
def pyReplace (s pat rep : String) : String :=
  if pat.data = [] then s else ⟨replaceFuel pat.data rep.data s.data.length s.data⟩

/-- Lexicographic comparison of character lists by code point: the order
underlying Python `<=` on strings. -/
def lexLE : List Char → List Char → Bool
  | [], _ => true
  | _ :: _, [] => false
  | a :: as, b :: bs => if a = b then lexLE as bs else decide (a.toNat < b.toNat)

/-- The comparison underlying Python `sorted` / `list.sort` on strings
(lexicographic by code point). -/
def strLE (a b : String) : Bool :=
  lexLE a.data b.data

/-! ## PDFix.py: GetPageCount -/

/-- One Python value returned by `GetPageCount` (PDFix.py 8-22): the failure
branch returns the two-element list `[inputPdfPath, -1]`, while the success
branch returns the dict `{inputPdfPath: size}`. The two shapes are distinct
constructors because the callers subscript the result. -/
inductive ProbeResult where
  | pylist (path : String) (count : Int)
  | pydict (path : String) (count : Int)
deriving DecidableEq, Repr

/-- `GetPageCount` (PDFix.py 8-22). The engine is the oracle `doc : Option Nat`:
`none` when `pdfix.OpenDoc` returns `None`, `some n` when the document opens
and `GetNumPages` yields `n`. -/
def GetPageCount (doc : Option Nat) (inputPdfPath : String) : ProbeResult :=
  match doc with
  | none => .pylist inputPdfPath (-1)
  | some size => .pydict inputPdfPath size

/-- The subscript `r[1]` applied by the drivers (Fix.py 47, Validate.py 41):
index 1 of the two-element list, but a KeyError on the dict, whose only key is
the path string (the int key 1 never equals a Python str). -/
def subscriptOne : ProbeResult → Except String Int
  | .pylist _ c => .ok c
  | .pydict _ _ => .error "KeyError: 1"

/-- The page-count summation loop of the drivers (Fix.py 44-47,
Validate.py 38-41): `total_pages += r[1]` over all probe results, aborting at
the first raised exception. -/
def sumPages (results : List ProbeResult) : Except String Int :=
  results.foldlM (fun acc r => (subscriptOne r).map (acc + ·)) 0

/-! ## PDFix.py: Fix -/

/-- Outcome oracle for the opaque PDFix engine calls made by `Fix`
(PDFix.py 24-67): whether `OpenDoc`, `CreateFileStream`,
`LoadParamsFromStream`, `Run` and `Save` succeed, and the text returned by
`pdfix.GetError()`. -/
structure PdfixEngine where
  openOk : Bool
  streamOk : Bool
  loadOk : Bool
  runOk : Bool
  saveOk : Bool
  errText : String
deriving DecidableEq, Repr

/-- `Fix` (PDFix.py 24-67) as the pair (printed log lines, raised exception if
any). When `OpenDoc` returns `None` the code prints and then immediately calls
`doc.GetCommand()` on `None`, which raises. When `CreateFileStream` returns a
falsy stream the code prints and then passes the `None` stream on, so the
later `cmdStm.Destroy()` attribute access raises. Failures of
`LoadParamsFromStream`, `Run` and `Save` are printed only and execution
continues to `doc.Close()`. -/
def Fix (eng : PdfixEngine) : List String × Option String :=
  if !eng.openOk then
    (["Unable to open pdf : " ++ eng.errText],
     some "AttributeError: NoneType object has no attribute GetCommand")
  else if !eng.streamOk then
    ([eng.errText], some "AttributeError: NoneType object has no attribute Destroy")
  else
    ((if !eng.loadOk then [eng.errText] else []) ++
     (if !eng.runOk then [eng.errText] else []) ++
     (if !eng.saveOk then [eng.errText] else []), none)

/-! ## VeraPDF.py -/

/-- A `<rule>` (or fallback `<check>`) element of a veraPDF XML report, with
the attributes and the optional `<description>` child text that the Python
code reads. A missing attribute is `none`; a `<description>` element whose
text is `None` is collapsed to `some ""` since every reader immediately
replaces falsy text by the empty string. -/
structure XmlRule where
  status : Option String
  specification : Option String
  clause : Option String
  clauseId : Option String
  test : Option String
  tags : Option String
  description : Option String
deriving DecidableEq, Repr

/-- A rule dict built by `parseValidationReport` (VeraPDF.py 67-84): the
specification/clause/tags keys are always present (value possibly `None`);
the description key is present only when the rule has a `<description>`
child. -/
structure ParsedRule where
  specification : Option String
  clause : Option String
  tags : Option String
  description : Option String
deriving DecidableEq, Repr

/-- `parseValidationReport` (VeraPDF.py 67-84) over the list of `<rule>`
elements found in the XML. -/
def parseValidationReport (rules : List XmlRule) : List ParsedRule :=
  rules.map (fun r =>
    { specification := r.specification, clause := r.clause,
      tags := r.tags, description := r.description })

/-- The tri-state verdict value stored by `validatePdf`: Python `True`,
`False`, or the string `Error`. -/
inductive Verdict where
  | compliant
  | nonCompliant
  | error
deriving DecidableEq, Repr

/-- The `[filename, verdict, rules]` value returned by `validatePdf`. -/
structure ValidationResult where
  filename : String
  verdict : Verdict
  rules : List ParsedRule
deriving DecidableEq, Repr

/-- Return value of `runJavaValidation` (VeraPDF.py 25-51): the try-branch
returns the triple `(returncode, stdout, stderr)`, while both except-branches
return the bare int `-1` (not a tuple). -/
inductive JavaRun where
  | triple (returncode : Int) (stdout : List XmlRule) (stderr : String)
  | bareInt (n : Int)
deriving DecidableEq, Repr

/-- `runJavaValidation` (VeraPDF.py 25-51) over a launch oracle:
`some (rc, rules, err)` when the subprocess runs, exits with code `rc` and its
stdout parses to `rules`; `none` when launching raises (Java binary not found,
or any other exception caught by the two except clauses). -/
def runJavaValidation (launch : Option (Int × List XmlRule × String)) : JavaRun :=
  match launch with
  | some (rc, out, err) => .triple rc out err
  | none => .bareInt (-1)

/-- `validatePdf` (VeraPDF.py 86-120). An `Except.error` value models an
uncaught Python exception escaping the call; `.ok` models a returned
`[filename, verdict, rules]` list. Unpacking the bare int returned by a
failed launch into `(exitCode, output, error)` raises a TypeError. -/
def validatePdf (inputDir outputDir pdfPath : String)
    (launch : Option (Int × List XmlRule × String)) : Except String ValidationResult :=
  match runJavaValidation launch with
  | .bareInt _ => .error "TypeError: cannot unpack non-iterable int object"
  | .triple exitCode output _stderr =>
    if exitCode > 1 then
      .ok ⟨lastPathComponent pdfPath, .error, []⟩
    else
      let filename := pyReplace (pyReplace pdfPath inputDir "") outputDir ""
      if exitCode = 0 then .ok ⟨filename, .compliant, []⟩
      else if exitCode = 1 then .ok ⟨filename, .nonCompliant, parseValidationReport output⟩
      else .ok ⟨filename, .error, []⟩

/-! ## Fix.py driver: job dispatch -/

/-- An `(input, output, report)` path triple as produced by `getFilePaths`
(Resources.py 21-38): one unit of remediation/validation work. -/
abbrev FileJob := String × String × String

/-- The job set the Fix.py driver actually dispatches (Fix.py 24-25):
`file_paths = file_paths[:25000]` truncates the discovered list before the
single `pool.starmap` dispatch over it (Fix.py 95-96). -/
def dispatchedJobs (file_paths : List FileJob) : List FileJob :=
  file_paths.take 25000

/-- The swapped path triples built for the post-remediation validation pass
(Fix.py 107-109). -/
def outputFilePaths (file_paths : List FileJob) : List FileJob :=
  file_paths.map (fun j => (j.2.1, j.2.1, j.2.2))

/-! ## Report.py: XML aggregation -/

/-- One per-file issue entry `{clause, description}` appended by
`collect_verapdf_issues_from_report` (Report.py 119, 136). -/
structure Issue where
  clause : String
  description : String
deriving DecidableEq, Repr

/-- The status filter of both collection loops (Report.py 101-103, 124-126):
skip an element whose lowercased status attribute is nonempty and not
`failed`. -/
def statusSkips (r : XmlRule) : Bool :=
  let s := pyLower (r.status.getD "")
  s != "" && s != "failed"

/-- The clause key of the `<rule>` pass (Report.py 105-110):
`rule.get("clause") or rule.get("clauseId") or rule.get("test") or "unknown"`. -/
def ruleClauseKey (r : XmlRule) : String :=
  pyOrStr r.clause (pyOrStr r.clauseId (pyOrStr r.test "unknown"))

/-- The clause key of the `<check>` fallback pass (Report.py 128):
`check.get("clause") or "unknown"`. -/
def checkClauseKey (r : XmlRule) : String :=
  pyOrStr r.clause "unknown"

/-- The description extraction of both collection loops (Report.py 115-116,
132-133): the stripped text of the `<description>` child, or the empty
string when it is missing or falsy. -/
def ruleDescription (r : XmlRule) : String :=
  pyStrip (r.description.getD "")

/-- The shared shape of the two collection loops of
`collect_verapdf_issues_from_report` (Report.py 100-136): walk the elements in
order, skip by status, compute the clause key with `key`, skip a clause
already in `seen`, otherwise append `{clause, description}` and remember the
clause. -/
def dedupLoop (key : XmlRule → String) : List XmlRule → List String → List Issue
  | [], _ => []
  | r :: rs, seen =>
    if statusSkips r then dedupLoop key rs seen
    else
      let c := key r
      if c ∈ seen then dedupLoop key rs seen
      else ⟨c, ruleDescription r⟩ :: dedupLoop key rs (c :: seen)

/-- The sort key of `issues.sort(key=lambda x: x["clause"])` (Report.py 138). -/
def issueLE (a b : Issue) : Bool :=
  strLE a.clause b.clause

/-- The issues list `collect_verapdf_issues_from_report` (Report.py 95-141)
stores into the shared summary for one XML report, given the `<rule>` and
`<check>` element lists of the document: the `<rule>` pass, the `<check>`
fallback when the first pass found nothing, then the sort by clause
(Python `list.sort` is a stable merge sort). -/
def collectIssues (rules checks : List XmlRule) : List Issue :=
  let issues := dedupLoop ruleClauseKey rules []
  let issues2 := if issues.isEmpty then dedupLoop checkClauseKey checks [] else issues
  issues2.mergeSort issueLE

/-- A veraPDF XML report document, reduced to the parts
`collect_verapdf_issues_from_report` reads: the text of `jobs/job/item/name`
when that element is present, and the `<rule>` and `<check>` element lists. -/
structure XmlReport where
  pdfName : Option String
  rules : List XmlRule
  checks : List XmlRule
deriving DecidableEq, Repr

/-- The summary dict key chosen for one report (Report.py 87-93): the stripped
pdf name when the name element is present with truthy text, else the XML file
path. -/
def reportKey (reportPath : String) (x : XmlReport) : String :=
  match x.pdfName with
  | some t => if t = "" then reportPath else t.trim
  | none => reportPath

/-- The shared summary dict `{pdf_path: issues}` (Report.py 74, 156), as an
insertion-ordered association list. The insertion order is the order in which
the parsing worker threads complete, which the thread pool does not fix. -/
abbrev Summary := List (String × List Issue)

/-- `load_xml_reports` (Report.py 144-172). Each input is the pair of an XML
file path and the outcome of `ET.parse` on it (`Except.error e` when parsing
raises with message `e`). A parse failure is re-raised as a RuntimeError
naming the offending file. The sequential recursion realises one of the
possible thread completion orders. -/
def load_xml_reports : List (String × Except String XmlReport) → Except String Summary
  | [] => .ok []
  | (path, .error e) :: _ =>
    .error ("Failed to parse XML report: " ++ path ++ ": " ++ e)
  | (path, .ok x) :: rest =>
    (load_xml_reports rest).map
      (fun s => (reportKey path x, collectIssues x.rules x.checks) :: s)

/-! ## Report.py: artifact writers -/

/-- `write_compliance_report` (Report.py 179-203) as the list of lines of the
TXT artifact: counts, blank line, the sorted compliant basenames, blank line,
the sorted non-compliant basenames. -/
def write_compliance_report (summary : Summary) : List String :=
  let cs := ((summary.filter (fun e => e.2.isEmpty)).map Prod.fst).mergeSort strLE
  let ns := ((summary.filter (fun e => !e.2.isEmpty)).map Prod.fst).mergeSort strLE
  ["Compliant File Count: " ++ toString cs.length,
   "Non-Compliant File Count: " ++ toString ns.length,
   "", "Compliant Files:"] ++ cs.map osBasename ++
  ["", "Non-Compliant Files:"] ++ ns.map osBasename

/-- The per-clause record of the `clause_stats` dict of
`write_clause_summary_csv` (Report.py 208). -/
structure ClauseStat where
  description : String
  count : Nat
deriving DecidableEq, Repr

/-- The `clause_stats` dict update (Report.py 223-228): a new clause is
inserted with count 1; an existing clause has its count incremented, and its
description replaced only when the stored one is empty and the new one is
not. -/
def updateStats : List (String × ClauseStat) → String → String → List (String × ClauseStat)
  | [], c, d => [(c, ⟨d, 1⟩)]
  | (k, s) :: rest, c, d =>
    if k = c then
      (k, ⟨if s.description = "" && d != "" then d else s.description, s.count + 1⟩) :: rest
    else
      (k, s) :: updateStats rest c d

/-- The per-file inner loop of `write_clause_summary_csv` (Report.py 211-228):
walk one file issue list with a fresh `seen_in_this_file` set, skipping falsy
clauses and clauses already counted for this file. -/
def fileLoop : List Issue → List String → List (String × ClauseStat) → List (String × ClauseStat)
  | [], _, stats => stats
  | i :: is, seen, stats =>
    if i.clause = "" then fileLoop is seen stats
    else if i.clause ∈ seen then fileLoop is seen stats
    else fileLoop is (i.clause :: seen) (updateStats stats i.clause (pyStrip i.description))

/-- The full `clause_stats` accumulation of `write_clause_summary_csv`
(Report.py 208-228), folding the per-file loop over the summary entries in
dict order. -/
def buildClauseStats (summary : Summary) : List (String × ClauseStat) :=
  summary.foldl (fun stats e => fileLoop e.2 [] stats) []

/-- The data rows of the clause-summary CSV (Report.py 230-237): one row per
clause of `clause_stats`, in ascending clause order. -/
def clauseSummaryRows (summary : Summary) : List (String × Nat × String) :=
  let stats := buildClauseStats summary
  ((stats.map Prod.fst).mergeSort strLE).map (fun c =>
    match stats.lookup c with
    | some s => (c, s.count, s.description)
    | none => (c, 0, ""))

/-- `write_clause_summary_csv` (Report.py 206-237) as the rows of cells of the
CSV artifact: the header row then the data rows. -/
def write_clause_summary_csv (summary : Summary) : List (List String) :=
  ["Clause", "Count", "Description"] ::
    (clauseSummaryRows summary).map (fun r => [r.1, toString r.2.1, r.2.2])

/-- `write_file_summary_csv` (Report.py 240-264) as the rows of cells of the
CSV artifact: header `file` plus the sorted set of all clauses, then one row
per file in sorted path order with `O` marking clause presence. A clause
literally named `file` overwrites the basename cell, as the row dict does. -/
def write_file_summary_csv (summary : Summary) : List (List String) :=
  let clauses := ((summary.map (fun e => e.2.map Issue.clause)).flatten).dedup.mergeSort strLE
  let fieldnames := "file" :: clauses
  fieldnames ::
    ((summary.map Prod.fst).mergeSort strLE).map (fun p =>
      let present := ((summary.lookup p).getD []).map Issue.clause
      fieldnames.map (fun name =>
        if name = "file" then (if present.contains "file" then "O" else osBasename p)
        else if present.contains name then "O" else ""))

/-! ## Report.py: standalone HTML rebuild, artifact parsers -/

/-- One clause entry appended by `parse_clause_summary_csv` (Report.py 386). -/
structure ClauseRow where
  clause : String
  description : String
  count : Int
deriving DecidableEq, Repr

/-- `parse_clause_summary_csv` (Report.py 374-387). The input is `none` when
the file does not exist, else the list of DictReader rows, each a mapping
from header name to cell string (a key is absent when the header lacks the
column). A missing Count value defaults to the string `0`; an empty one is
replaced by the int 0; a ValueError from `int` is caught and yields 0. -/
def parse_clause_summary_csv : Option (List (List (String × String))) → List ClauseRow
  | none => []
  | some rows => rows.map (fun row =>
      let raw := (row.lookup "Count").getD "0"
      let count := if raw = "" then 0 else (pyInt raw).getD 0
      ⟨(row.lookup "Clause").getD "", (row.lookup "Description").getD "", count⟩)

/-- Python `line.split(":", 1)[1]`: everything after the first colon (used
only on lines known to contain one). -/
def afterFirstColon (line : String) : String :=
  ⟨(line.data.dropWhile (fun c => c ≠ ':')).drop 1⟩

/-- The line loop of `parse_compliance_txt` (Report.py 339-369), carrying the
current section mode (`some true` inside Compliant Files, `some false` inside
Non-Compliant Files) and the accumulated counts and file lists. A ValueError
from `int` on a count line is caught with `pass`, keeping the previous
value. -/
def complianceLoop : List String → Option Bool → Int → Int → List String → List String →
    Int × Int × List String × List String
  | [], _, cc, nc, cfs, nfs => (cc, nc, cfs.reverse, nfs.reverse)
  | l :: ls, mode, cc, nc, cfs, nfs =>
    let line := pyStrip l
    if line = "" then complianceLoop ls mode cc nc cfs nfs
    else if pyStartsWith line "Compliant File Count:" then
      complianceLoop ls mode ((pyInt (pyStrip (afterFirstColon line))).getD cc) nc cfs nfs
    else if pyStartsWith line "Non-Compliant File Count:" then
      complianceLoop ls mode cc ((pyInt (pyStrip (afterFirstColon line))).getD nc) cfs nfs
    else if pyStartsWith line "Compliant Files" then
      complianceLoop ls (some true) cc nc cfs nfs
    else if pyStartsWith line "Non-Compliant Files" then
      complianceLoop ls (some false) cc nc cfs nfs
    else
      match mode with
      | some true => complianceLoop ls mode cc nc (line :: cfs) nfs
      | some false => complianceLoop ls mode cc nc cfs (line :: nfs)
      | none => complianceLoop ls mode cc nc cfs nfs

/-- `parse_compliance_txt` (Report.py 328-371): `(0, 0, [], [])` when the file
does not exist, else the line loop over the file content. -/
def parse_compliance_txt (content : Option (List String)) : Int × Int × List String × List String :=
  match content with
  | none => (0, 0, [], [])
  | some lines => complianceLoop lines none 0 0 [] []

/-! ## Report.py: generate_phase_html summary cards -/

/-- Python float division: raises ZeroDivisionError on a zero denominator.
Exact rationals stand in for the float values. -/
def pyDiv (a b : ℚ) : Except String ℚ :=
  if b = 0 then .error "ZeroDivisionError: float division by zero" else .ok (a / b)

/-- The Total PDFs Validated card value (Report.py 423-424):
`str(total_files) if total_files > 0 else "N/A"`. -/
def totalFilesText (compliantCount nonCompliantCount : Int) : String :=
  let total := compliantCount + nonCompliantCount
  if 0 < total then toString total else "N/A"

/-- The compliant ratio (Report.py 426): the guarded division
`(compliant_count / total_files) if total_files > 0 else 0.0`. -/
def compliantFrac (compliantCount nonCompliantCount : Int) : Except String ℚ :=
  let total := compliantCount + nonCompliantCount
  if 0 < total then pyDiv compliantCount total else .ok 0

/-- The non-compliant ratio (Report.py 427):
`1.0 - compliant_ratio if total_files > 0 else 0.0`. -/
def nonCompliantFrac (compliantCount nonCompliantCount : Int) : Except String ℚ :=
  let total := compliantCount + nonCompliantCount
  if 0 < total then (compliantFrac compliantCount nonCompliantCount).map (1 - ·) else .ok 0

/-- The percent text `{ratio*100:.1f}` of the card notes (Report.py 528, 541)
for a nonnegative ratio: one decimal digit. CPython formats the underlying
binary float; this exact-rational model agrees with it at the guard outputs
the claims evaluate (0 and 1), which are exactly representable and not
rounding ties. -/
def pct1 (ratio : ℚ) : String :=
  let scaled : Int := round (ratio * 1000)
  toString (scaled / 10) ++ "." ++ toString ((scaled % 10).natAbs)

/-! ## Concrete instances used by counterexamples and witnesses -/

/-- A discovery of 25001 distinct files, one more than the Fix.py cut. -/
def bigJobList : List FileJob :=
  (List.range 25001).map (fun n => (toString n, "out", "rep"))

/-- A failed rule with clause 7.1 and an empty description. -/
def dupRuleA : XmlRule :=
  ⟨some "failed", none, some "7.1", none, none, none, some ""⟩

/-- A second failed rule with the same clause 7.1 and a nonempty
description. -/
def dupRuleB : XmlRule :=
  ⟨some "failed", none, some "7.1", none, none, none, some "Tagged content missing"⟩

/-- A failed rule with clause 8.2 used by the C4 witness. -/
def wRule : XmlRule :=
  ⟨none, none, some "8.2", none, none, none, some "Alt text missing"⟩

/-- Two files reporting the same clause with different descriptions, in one
thread completion order. -/
def summaryAB : Summary :=
  [("a.pdf", [⟨"7.1", "first text"⟩]), ("b.pdf", [⟨"7.1", "second text"⟩])]

/-- The same two files in the other completion order. -/
def summaryBA : Summary :=
  [("b.pdf", [⟨"7.1", "second text"⟩]), ("a.pdf", [⟨"7.1", "first text"⟩])]

/-- A one-file summary used by witnesses. -/
def summaryW : Summary :=
  [("w.pdf", [⟨"5.3", "table header"⟩, ⟨"5.3", "other"⟩, ⟨"", "empty clause"⟩])]

/-- The count stored in the clause stats for a clause, 0 when the clause has
no entry. Used to state what `write_clause_summary_csv` counts. -/
def statCount : List (String × ClauseStat) → String → Nat
  | [], _ => 0
  | (k, s) :: rest, x => if k = x then s.count else statCount rest x

/-- The first element of a rule list that the collection loop would accept
for a given clause key: not skipped by status, and keyed to that clause.
Used to state that the first match per clause wins. -/
def firstMatch (key : XmlRule → String) (c : String) (l : List XmlRule) : Option XmlRule :=
  l.find? (fun r => !statusSkips r && (key r == c))

/-! ## Order lemmas for the Python string sort -/

theorem lexLE_trans : ∀ as bs cs : List Char, lexLE as bs → lexLE bs cs → lexLE as cs := by
  intro as
  induction as with
  | nil => intro bs cs _ _; simp [lexLE]
  | cons a as ih =>
    intro bs cs hab hbc
    cases bs with
    | nil => simp [lexLE] at hab
    | cons b bs =>
      cases cs with
      | nil => simp [lexLE] at hbc
      | cons c cs =>
        simp only [lexLE] at hab hbc ⊢
        by_cases h1 : a = b
        · subst h1
          rw [if_pos rfl] at hab
          by_cases h2 : a = c
          · subst h2; rw [if_pos rfl] at hbc ⊢; exact ih bs cs hab hbc
          · rw [if_neg h2] at hbc ⊢; exact hbc
        · rw [if_neg h1] at hab
          by_cases h2 : b = c
          · subst h2; rw [if_neg h1]; exact hab
          · rw [if_neg h2] at hbc
            have hac : a ≠ c := by
              intro he
              subst he
              simp only [decide_eq_true_eq] at hab hbc
              omega
            rw [if_neg hac]
            simp only [decide_eq_true_eq] at hab hbc ⊢
            omega

theorem lexLE_total : ∀ as bs : List Char, lexLE as bs || lexLE bs as := by
  intro as
  induction as with
  | nil => intro bs; simp [lexLE]
  | cons a as ih =>
    intro bs
    cases bs with
    | nil => simp [lexLE]
    | cons b bs =>
      simp only [lexLE]
      by_cases h : a = b
      · subst h; rw [if_pos rfl, if_pos rfl]; exact ih bs
      · rw [if_neg h, if_neg (Ne.symm h)]
        have hne : a.toNat ≠ b.toNat := fun he => h (Char.ext (UInt32.toNat.inj he))
        simp only [Bool.or_eq_true, decide_eq_true_eq]
        omega

theorem lexLE_antisymm : ∀ as bs : List Char, lexLE as bs → lexLE bs as → as = bs := by
  intro as
  induction as with
  | nil =>
    intro bs h1 h2
    cases bs with
    | nil => rfl
    | cons b bs => simp [lexLE] at h2
  | cons a as ih =>
    intro bs h1 h2
    cases bs with
    | nil => simp [lexLE] at h1
    | cons b bs =>
      simp only [lexLE] at h1 h2
      by_cases h : a = b
      · subst h
        rw [if_pos rfl] at h1 h2
        rw [ih bs h1 h2]
      · rw [if_neg h] at h1
        rw [if_neg (Ne.symm h)] at h2
        exfalso
        simp only [decide_eq_true_eq] at h1 h2
        omega

theorem strLE_trans : ∀ a b c : String, strLE a b → strLE b c → strLE a c :=
  fun a b c h1 h2 => lexLE_trans a.data b.data c.data h1 h2

theorem strLE_total : ∀ a b : String, strLE a b || strLE b a :=
  fun a b => lexLE_total a.data b.data

theorem strLE_antisymm : ∀ a b : String, strLE a b → strLE b a → a = b := by
  intro a b h1 h2
  cases a with
  | mk as =>
    cases b with
    | mk bs => exact congrArg String.mk (lexLE_antisymm as bs h1 h2)

theorem issueLE_trans : ∀ a b c : Issue, issueLE a b → issueLE b c → issueLE a c :=
  fun a b c h1 h2 => strLE_trans a.clause b.clause c.clause h1 h2

theorem issueLE_total : ∀ a b : Issue, issueLE a b || issueLE b a :=
  fun a b => strLE_total a.clause b.clause

/-- Two permuted string lists have the same merge sort: the sort is a
canonical form of the multiset. -/
theorem mergeSort_strLE_eq_of_perm (l₁ l₂ : List String) (h : l₁.Perm l₂) :
    l₁.mergeSort strLE = l₂.mergeSort strLE := by
  refine @List.eq_of_perm_of_sorted _ (fun a b => strLE a b = true) ⟨strLE_antisymm⟩ _ _ ?_ ?_ ?_
  · exact ((List.mergeSort_perm l₁ strLE).trans h).trans (List.mergeSort_perm l₂ strLE).symm
  · exact List.sorted_mergeSort strLE_trans strLE_total l₁
  · exact List.sorted_mergeSort strLE_trans strLE_total l₂

/-! ## C1: partition completeness of the dispatched job set -/

/-- C1 counterexample: a discovered set of 25001 files is not dispatched in
full — the Fix.py cut `file_paths[:25000]` drops the 25001st file, so the
dispatched jobs are not the original file set. -/
theorem C1_counterexample : dispatchedJobs bigJobList ≠ bigJobList := by
  intro h
  have hl := congrArg List.length h
  simp only [dispatchedJobs, bigJobList, List.length_take, List.length_map,
    List.length_range] at hl
  omega

/-- C1 amended: for a discovered input file set of at most 25000 files, the
dispatched job list is the discovered list itself, so every discovered file
is dispatched exactly once; larger discoveries are truncated to their first
25000 files. -/
theorem C1_dispatch_complete (file_paths : List FileJob)
    (h : file_paths.length ≤ 25000) : dispatchedJobs file_paths = file_paths :=
  List.take_of_length_le h

/-- C1 witness: the amended statement applied to a concrete two-file
discovery. -/
theorem C1_witness :
    ([("in/a.pdf", "out/a.pdf", "rep"), ("in/b.pdf", "out/b.pdf", "rep")] : List FileJob).length ≤
        25000 ∧
      dispatchedJobs [("in/a.pdf", "out/a.pdf", "rep"), ("in/b.pdf", "out/b.pdf", "rep")] =
        [("in/a.pdf", "out/a.pdf", "rep"), ("in/b.pdf", "out/b.pdf", "rep")] :=
  ⟨by decide, C1_dispatch_complete _ (by decide)⟩

/-! ## C2: page-count probe result shape -/

/-- C2, code evaluated at the failing input: a successful probe returns the
dict shape, whose `[1]` subscript raises KeyError, so the page-count
summation fails on the first openable file; only the failure branch returns
the list shape whose index 1 is the -1 sentinel, and an all-failed probe run
sums without raising. -/
theorem C2_probe_keyerror :
    GetPageCount (some 3) "good.pdf" = ProbeResult.pydict "good.pdf" 3 ∧
    sumPages [GetPageCount (some 3) "good.pdf"] = .error "KeyError: 1" ∧
    GetPageCount none "bad.pdf" = ProbeResult.pylist "bad.pdf" (-1) ∧
    sumPages [GetPageCount none "bad.pdf", GetPageCount none "bad2.pdf"] = .ok (-2) :=
  ⟨rfl, rfl, rfl, rfl⟩

/-! ## C3: validation verdict classification -/

/-- C3: the exit-code classification of `validatePdf` — 0 is Compliant, 1 is
NonCompliant with the parsed rules, 2 and -9 are Error — but a launch failure
makes `runJavaValidation` return a bare int whose unpacking raises a
TypeError instead of returning an Error verdict. -/
theorem C3_launch_failure_raises :
    (∀ inDir outDir p, validatePdf inDir outDir p none =
      .error "TypeError: cannot unpack non-iterable int object") ∧
    (∀ inDir outDir p out err, validatePdf inDir outDir p (some (0, out, err)) =
      .ok ⟨pyReplace (pyReplace p inDir "") outDir "", .compliant, []⟩) ∧
    (∀ inDir outDir p out err, validatePdf inDir outDir p (some (1, out, err)) =
      .ok ⟨pyReplace (pyReplace p inDir "") outDir "", .nonCompliant, parseValidationReport out⟩) ∧
    (∀ inDir outDir p out err, validatePdf inDir outDir p (some (2, out, err)) =
      .ok ⟨lastPathComponent p, .error, []⟩) ∧
    (∀ inDir outDir p out err, validatePdf inDir outDir p (some (-9, out, err)) =
      .ok ⟨pyReplace (pyReplace p inDir "") outDir "", .error, []⟩) :=
  ⟨fun _ _ _ => rfl, fun _ _ _ _ _ => rfl, fun _ _ _ _ _ => rfl,
   fun _ _ _ _ _ => rfl, fun _ _ _ _ _ => rfl⟩

/-! ## C6: remediation failure containment -/

/-- C6, code evaluated at the failing input: when the engine cannot open the
document, `Fix` prints the open failure and then raises an AttributeError by
calling `GetCommand` on the `None` document, so the exception leaves the
worker; failures of loading, running and saving are printed only and nothing
is raised. -/
theorem C6_open_failure_raises :
    Fix ⟨false, true, true, true, true, "cannot open"⟩ =
      (["Unable to open pdf : cannot open"],
       some "AttributeError: NoneType object has no attribute GetCommand") ∧
    Fix ⟨true, true, false, false, false, "engine failure"⟩ =
      (["engine failure", "engine failure", "engine failure"], none) ∧
    Fix ⟨true, true, true, true, false, "save failure"⟩ = (["save failure"], none) ∧
    Fix ⟨true, true, true, true, true, ""⟩ = ([], none) :=
  ⟨rfl, rfl, rfl, rfl⟩

/-! ## C9: zero-file guard of the HTML summary cards -/

theorem compliantFrac_isOk (c n : Int) : ∃ q, compliantFrac c n = .ok q := by
  simp only [compliantFrac, pyDiv]
  split
  · rename_i h
    rw [if_neg]
    · exact ⟨_, rfl⟩
    · intro h0
      have : c + n = 0 := by exact_mod_cast h0
      omega
  · exact ⟨0, rfl⟩

theorem nonCompliantFrac_isOk (c n : Int) : ∃ q, nonCompliantFrac c n = .ok q := by
  simp only [nonCompliantFrac]
  split
  · obtain ⟨q, hq⟩ := compliantFrac_isOk c n
    rw [hq]
    exact ⟨_, rfl⟩
  · exact ⟨0, rfl⟩

/-- C9: with zero compliant and zero non-compliant files the total card shows
N/A, both guarded ratios are 0 (rendered 0.0 percent by the one-decimal
format), and for every pair of counts the ratio computation returns a value —
the ZeroDivisionError branch of the division is never taken. -/
theorem C9_zero_guard :
    totalFilesText 0 0 = "N/A" ∧
    compliantFrac 0 0 = .ok 0 ∧
    nonCompliantFrac 0 0 = .ok 0 ∧
    pct1 0 = "0.0" ∧
    ∀ c n : Int, (∃ q, compliantFrac c n = .ok q) ∧ ∃ q, nonCompliantFrac c n = .ok q :=
  ⟨rfl, rfl, rfl, by simp [pct1]; rfl,
   fun c n => ⟨compliantFrac_isOk c n, nonCompliantFrac_isOk c n⟩⟩

/-! ## C8: artifact parse failure handling -/

theorem load_xml_reports_ok (docs : List (String × Except String XmlReport))
    (h : ∀ d ∈ docs, ∃ x, d.2 = Except.ok x) :
    ∃ s, load_xml_reports docs = .ok s := by
  induction docs with
  | nil => exact ⟨[], rfl⟩
  | cons d rest ih =>
    obtain ⟨p, r⟩ := d
    obtain ⟨x, hx⟩ := h (p, r) (List.mem_cons_self _ _)
    simp only at hx
    subst hx
    obtain ⟨s, hs⟩ := ih (fun d hd => h d (List.mem_cons_of_mem _ hd))
    exact ⟨_, by simp only [load_xml_reports, hs]; rfl⟩

theorem load_xml_reports_error (docs : List (String × Except String XmlReport))
    (p : String) (e : String) (h : (p, Except.error e) ∈ docs) :
    ∃ p2 e2, (p2, Except.error e2) ∈ docs ∧
      load_xml_reports docs = .error ("Failed to parse XML report: " ++ p2 ++ ": " ++ e2) := by
  induction docs with
  | nil => simp at h
  | cons d rest ih =>
    obtain ⟨q, r⟩ := d
    cases r with
    | error e2 => exact ⟨q, e2, List.mem_cons_self _ _, rfl⟩
    | ok x =>
      have hmem : (p, Except.error e) ∈ rest := by
        rcases List.mem_cons.mp h with heq | hmem
        · simp at heq
        · exact hmem
      obtain ⟨p2, e2, hmem2, hload⟩ := ih hmem
      refine ⟨p2, e2, List.mem_cons_of_mem _ hmem2, ?_⟩
      simp only [load_xml_reports, hload]
      rfl

/-- C8: a missing compliance TXT or clause CSV parses to empty data, a
present CSV yields one entry per row with an unparseable Count defaulting
to 0 — never raising — while during XML aggregation a well-formed document
set loads, and any malformed document makes the load raise an error naming
an offending file. -/
theorem C8_parse_failures :
    parse_clause_summary_csv none = [] ∧
    parse_compliance_txt none = (0, 0, [], []) ∧
    (∀ rows, (parse_clause_summary_csv (some rows)).length = rows.length) ∧
    parse_clause_summary_csv (some [[("Clause", "7.1"), ("Count", "garbage")]]) =
      [⟨"7.1", "", 0⟩] ∧
    (∀ docs, (∀ d ∈ docs, ∃ x, d.2 = Except.ok x) → ∃ s, load_xml_reports docs = .ok s) ∧
    (∀ docs p e, (p, Except.error e) ∈ docs →
      ∃ p2 e2, (p2, Except.error e2) ∈ docs ∧
        load_xml_reports docs = .error ("Failed to parse XML report: " ++ p2 ++ ": " ++ e2)) :=
  ⟨rfl, rfl, fun rows => by simp [parse_clause_summary_csv], rfl,
   fun docs h => load_xml_reports_ok docs h,
   fun docs p e h => load_xml_reports_error docs p e h⟩

/-- C8 witness: the load conjuncts applied to a concrete well-formed set and
a concrete malformed one. -/
theorem C8_witness :
    (∀ d ∈ [("good.xml", (Except.ok ⟨some "a.pdf", [], []⟩ : Except String XmlReport))],
      ∃ x, d.2 = Except.ok x) ∧
    (∃ s, load_xml_reports [("good.xml", (Except.ok ⟨some "a.pdf", [], []⟩ :
      Except String XmlReport))] = .ok s) ∧
    (("bad.xml", (Except.error "junk after document element" : Except String XmlReport)) ∈
      [("bad.xml", (Except.error "junk after document element" : Except String XmlReport))]) ∧
    ∃ p2 e2,
      (p2, Except.error e2) ∈
        [("bad.xml", (Except.error "junk after document element" : Except String XmlReport))] ∧
      load_xml_reports [("bad.xml", .error "junk after document element")] =
        .error ("Failed to parse XML report: " ++ p2 ++ ": " ++ e2) :=
  by
  refine ⟨?_, ?_, ?_, ?_⟩
  · intro d hd
    rw [List.mem_singleton] at hd
    subst hd
    exact ⟨_, rfl⟩
  · refine C8_parse_failures.2.2.2.2.1 _ ?_
    intro d hd
    rw [List.mem_singleton] at hd
    subst hd
    exact ⟨_, rfl⟩
  · exact List.mem_cons_self _ _
  · exact C8_parse_failures.2.2.2.2.2 _ "bad.xml" "junk after document element"
      (List.mem_cons_self _ _)

/-! ## C4 and C10: per-file dedup and sort of collected issues -/

/-- Every issue produced by the collection loop has a clause outside `seen`,
and carries the description of the first accepted occurrence of its clause in
the remaining input. -/
theorem dedupLoop_spec (key : XmlRule → String) :
    ∀ (l : List XmlRule) (seen : List String), ∀ i ∈ dedupLoop key l seen,
      i.clause ∉ seen ∧
        ∃ r, firstMatch key i.clause l = some r ∧ i.description = ruleDescription r := by
  intro l
  induction l with
  | nil => intro seen i hi; simp [dedupLoop] at hi
  | cons r rs ih =>
    intro seen i hi
    simp only [dedupLoop] at hi
    by_cases hs : statusSkips r
    · rw [if_pos hs] at hi
      obtain ⟨h1, rr, h2, h3⟩ := ih seen i hi
      refine ⟨h1, rr, ?_, h3⟩
      rw [firstMatch, List.find?_cons_of_neg, ← firstMatch]
      · exact h2
      · simp [hs]
    · rw [if_neg hs] at hi
      by_cases hc : key r ∈ seen
      · rw [if_pos hc] at hi
        obtain ⟨h1, rr, h2, h3⟩ := ih seen i hi
        have hne : key r ≠ i.clause := fun he => h1 (he ▸ hc)
        refine ⟨h1, rr, ?_, h3⟩
        rw [firstMatch, List.find?_cons_of_neg, ← firstMatch]
        · exact h2
        · simp [hs, hne]
      · rw [if_neg hc] at hi
        rcases List.mem_cons.mp hi with hi | hi
        · subst hi
          refine ⟨hc, r, ?_, rfl⟩
          rw [firstMatch, List.find?_cons_of_pos]
          simp [hs]
        · obtain ⟨h1, rr, h2, h3⟩ := ih (key r :: seen) i hi
          have hne : key r ≠ i.clause := fun he => h1 (he ▸ List.mem_cons_self _ _)
          refine ⟨fun hmem => h1 (List.mem_cons_of_mem _ hmem), rr, ?_, h3⟩
          rw [firstMatch, List.find?_cons_of_neg, ← firstMatch]
          · exact h2
          · simp [hs, hne]

/-- The clauses of the issues produced by the collection loop are pairwise
distinct. -/
theorem dedupLoop_nodup (key : XmlRule → String) :
    ∀ (l : List XmlRule) (seen : List String),
      ((dedupLoop key l seen).map Issue.clause).Nodup := by
  intro l
  induction l with
  | nil => intro seen; simp [dedupLoop]
  | cons r rs ih =>
    intro seen
    simp only [dedupLoop]
    by_cases hs : statusSkips r
    · rw [if_pos hs]; exact ih seen
    · rw [if_neg hs]
      by_cases hc : key r ∈ seen
      · rw [if_pos hc]; exact ih seen
      · rw [if_neg hc]
        simp only [List.map_cons, List.nodup_cons]
        refine ⟨?_, ih _⟩
        intro hmem
        obtain ⟨i, hi, hclause⟩ := List.mem_map.mp hmem
        exact (dedupLoop_spec key rs (key r :: seen) i hi).1
          (hclause ▸ List.mem_cons_self _ _)

/-- C4 counterexample: two failed rules for clause 7.1 where the first has an
empty description and the second a nonempty one. The aggregated per-file list
keeps the first occurrence with its empty description — the nonempty later
description is not preferred. -/
theorem C4_counterexample :
    collectIssues [dupRuleA, dupRuleB] [] = [⟨"7.1", ""⟩] ∧
    ruleDescription dupRuleB = "Tagged content missing" := by
  constructor
  · rw [show collectIssues [dupRuleA, dupRuleB] [] = List.mergeSort [⟨"7.1", ""⟩] issueLE from
      rfl, List.mergeSort_singleton]
  · rfl

/-- C4 amended: the aggregated per-file violation list contains each clause
id at most once, and the kept entry for a clause is the first accepted
occurrence in document order, keeping that occurrence's description — an
earlier empty description is kept even when a later occurrence of the same
clause carries a nonempty one (the nonempty-description preference exists
only in the cross-file clause statistics). -/
theorem C4_dedup_first_wins (rules checks : List XmlRule) :
    ((collectIssues rules checks).map Issue.clause).Nodup ∧
    ((dedupLoop ruleClauseKey rules []).isEmpty = false →
      ∀ i ∈ collectIssues rules checks,
        ∃ r, firstMatch ruleClauseKey i.clause rules = some r ∧
          i.description = ruleDescription r) ∧
    ((dedupLoop ruleClauseKey rules []).isEmpty = true →
      ∀ i ∈ collectIssues rules checks,
        ∃ r, firstMatch checkClauseKey i.clause checks = some r ∧
          i.description = ruleDescription r) := by
  refine ⟨?_, ?_, ?_⟩
  · have hperm : (collectIssues rules checks).Perm
        (if (dedupLoop ruleClauseKey rules []).isEmpty then dedupLoop checkClauseKey checks []
         else dedupLoop ruleClauseKey rules []) := List.mergeSort_perm _ _
    refine ((hperm.map Issue.clause).nodup_iff).mpr ?_
    split
    · exact dedupLoop_nodup checkClauseKey checks []
    · exact dedupLoop_nodup ruleClauseKey rules []
  · intro hne i hi
    rw [show collectIssues rules checks =
        (if (dedupLoop ruleClauseKey rules []).isEmpty then dedupLoop checkClauseKey checks []
         else dedupLoop ruleClauseKey rules []).mergeSort issueLE from rfl,
      List.mem_mergeSort, hne] at hi
    simp only [Bool.false_eq_true, if_false] at hi
    exact (dedupLoop_spec ruleClauseKey rules [] i hi).2
  · intro hem i hi
    rw [show collectIssues rules checks =
        (if (dedupLoop ruleClauseKey rules []).isEmpty then dedupLoop checkClauseKey checks []
         else dedupLoop ruleClauseKey rules []).mergeSort issueLE from rfl,
      List.mem_mergeSort, hem] at hi
    simp only [if_true] at hi
    exact (dedupLoop_spec checkClauseKey checks [] i hi).2

/-- C4 witness: the amended statement applied to one concrete rule list. -/
theorem C4_witness :
    ((dedupLoop ruleClauseKey [wRule] []).isEmpty = false) ∧
    ∃ r, firstMatch ruleClauseKey "8.2" [wRule] = some r ∧
      ("Alt text missing" : String) = ruleDescription r := by
  refine ⟨rfl, ?_⟩
  have h := (C4_dedup_first_wins [wRule] []).2.1 rfl ⟨"8.2", "Alt text missing"⟩ ?_
  · exact h
  · rw [show collectIssues [wRule] [] =
        List.mergeSort [⟨"8.2", "Alt text missing"⟩] issueLE from rfl,
      List.mergeSort_singleton]
    exact List.mem_singleton.mpr rfl

/-- C10: the per-file issues list stored into the shared summary by the
aggregation step is sorted ascending by clause id (in the code point order
Python string comparison uses). -/
theorem C10_issues_sorted (rules checks : List XmlRule) :
    (collectIssues rules checks).Pairwise (fun a b => strLE a.clause b.clause) :=
  List.sorted_mergeSort issueLE_trans issueLE_total
    (if (dedupLoop ruleClauseKey rules []).isEmpty then dedupLoop checkClauseKey checks []
     else dedupLoop ruleClauseKey rules [])


/-! ## Clause statistics lemmas (shared by C5 and C7) -/

/-- Unfolding `List.lookup` one step. -/
theorem lookup_cons {β : Type} (k p : String) (v : β) (l : List (String × β)) :
    ((k, v) :: l).lookup p = cond (p == k) (some v) (l.lookup p) := by
  simp only [List.lookup]
  cases p == k <;> rfl

/-- `statCount` reads exactly the count field the row writer looks up. -/
theorem statCount_eq_lookup (stats : List (String × ClauseStat)) (x : String) :
    statCount stats x = ((stats.lookup x).map ClauseStat.count).getD 0 := by
  induction stats with
  | nil => rfl
  | cons hd tl ih =>
    obtain ⟨k, s⟩ := hd
    rw [lookup_cons]
    by_cases h : k = x
    · subst h
      simp [statCount]
    · have hbeq : (x == k) = false := by
        simp only [beq_eq_false_iff_ne, ne_eq]
        exact Ne.symm h
      simp [statCount, hbeq, h, ih]

theorem updateStats_statCount (stats : List (String × ClauseStat)) (c d x : String) :
    statCount (updateStats stats c d) x = statCount stats x + (if x = c then 1 else 0) := by
  induction stats with
  | nil =>
    by_cases h : x = c
    · subst h
      simp [updateStats, statCount]
    · simp [updateStats, statCount, Ne.symm h, h]
  | cons hd tl ih =>
    obtain ⟨k, s⟩ := hd
    by_cases hk : k = c
    · subst hk
      simp only [updateStats, if_pos rfl, statCount]
      by_cases hx : k = x
      · subst hx
        simp [statCount]
      · have hxc : ¬x = k := Ne.symm hx
        simp [statCount, hx, hxc]
    · simp only [updateStats, if_neg hk, statCount]
      by_cases hx : k = x
      · subst hx
        have hxc : ¬k = c := hk
        simp [hxc]
      · simp [hx, ih]

theorem fileLoop_statCount :
    ∀ (issues : List Issue) (seen : List String) (stats : List (String × ClauseStat))
      (x : String),
      statCount (fileLoop issues seen stats) x =
        statCount stats x +
          (if x ≠ "" ∧ x ∉ seen ∧ x ∈ issues.map Issue.clause then 1 else 0) := by
  intro issues
  induction issues with
  | nil =>
    intro seen stats x
    simp [fileLoop]
  | cons i is ih =>
    intro seen stats x
    simp only [fileLoop]
    by_cases h1 : i.clause = ""
    · rw [if_pos h1, ih]
      congr 1
      by_cases hx : x = i.clause
      · subst hx
        simp [h1]
      · simp [List.mem_cons, hx]
    · rw [if_neg h1]
      by_cases h2 : i.clause ∈ seen
      · rw [if_pos h2, ih]
        congr 1
        by_cases hx : x = i.clause
        · subst hx
          simp [h2]
        · simp [List.mem_cons, hx]
      · rw [if_neg h2, ih, updateStats_statCount]
        by_cases hx : x = i.clause
        · subst hx
          simp [h1, h2, List.mem_cons]
        · simp [List.mem_cons, hx]

theorem buildClauseStats_statCount_aux :
    ∀ (l : Summary) (stats : List (String × ClauseStat)) (x : String),
      statCount (l.foldl (fun st e => fileLoop e.2 [] st) stats) x =
        statCount stats x + l.countP (fun e => decide (x ≠ "" ∧ x ∈ e.2.map Issue.clause)) := by
  intro l
  induction l with
  | nil =>
    intro stats x
    simp
  | cons e l ih =>
    intro stats x
    simp only [List.foldl_cons, List.countP_cons, ih, fileLoop_statCount]
    by_cases hx : x ≠ "" ∧ x ∈ e.2.map Issue.clause
    · rw [if_pos ⟨hx.1, by simp, hx.2⟩,
        if_pos (show (decide (x ≠ "" ∧ x ∈ e.2.map Issue.clause)) = true by simpa using hx)]
      omega
    · rw [if_neg (fun hc => hx ⟨hc.1, hc.2.2⟩),
        if_neg (show ¬(decide (x ≠ "" ∧ x ∈ e.2.map Issue.clause)) = true by simpa using hx)]
      omega

theorem buildClauseStats_statCount (summary : Summary) (x : String) :
    statCount (buildClauseStats summary) x =
      summary.countP (fun e => decide (x ≠ "" ∧ x ∈ e.2.map Issue.clause)) := by
  have h := buildClauseStats_statCount_aux summary [] x
  simpa [statCount, buildClauseStats] using h

theorem updateStats_keys (stats : List (String × ClauseStat)) (c d : String) :
    (updateStats stats c d).map Prod.fst =
      if c ∈ stats.map Prod.fst then stats.map Prod.fst else stats.map Prod.fst ++ [c] := by
  induction stats with
  | nil => simp [updateStats]
  | cons hd tl ih =>
    obtain ⟨k, s⟩ := hd
    by_cases hk : k = c
    · subst hk
      simp [updateStats]
    · simp only [updateStats, if_neg hk, List.map_cons, ih, List.mem_cons]
      by_cases hc : c ∈ tl.map Prod.fst
      · simp [hc, Ne.symm hk]
      · simp [hc, Ne.symm hk]

theorem updateStats_keys_nodup (stats : List (String × ClauseStat)) (c d : String)
    (h : (stats.map Prod.fst).Nodup) : ((updateStats stats c d).map Prod.fst).Nodup := by
  rw [updateStats_keys]
  split
  · exact h
  · rename_i hc
    simp [List.nodup_append, h, hc]

theorem fileLoop_keys_nodup :
    ∀ (issues : List Issue) (seen : List String) (stats : List (String × ClauseStat)),
      (stats.map Prod.fst).Nodup → ((fileLoop issues seen stats).map Prod.fst).Nodup := by
  intro issues
  induction issues with
  | nil =>
    intro seen stats h
    exact h
  | cons i is ih =>
    intro seen stats h
    simp only [fileLoop]
    by_cases h1 : i.clause = ""
    · rw [if_pos h1]
      exact ih seen stats h
    · rw [if_neg h1]
      by_cases h2 : i.clause ∈ seen
      · rw [if_pos h2]
        exact ih seen stats h
      · rw [if_neg h2]
        exact ih _ _ (updateStats_keys_nodup _ _ _ h)

theorem buildClauseStats_keys_nodup (summary : Summary) :
    ((buildClauseStats summary).map Prod.fst).Nodup := by
  suffices h : ∀ (l : Summary) (stats : List (String × ClauseStat)),
      (stats.map Prod.fst).Nodup →
      ((l.foldl (fun st e => fileLoop e.2 [] st) stats).map Prod.fst).Nodup by
    exact h summary [] (by simp)
  intro l
  induction l with
  | nil =>
    intro stats h
    exact h
  | cons e l ih =>
    intro stats h
    exact ih _ (fileLoop_keys_nodup e.2 [] stats h)

theorem updateStats_mem_keys (stats : List (String × ClauseStat)) (c d x : String) :
    x ∈ (updateStats stats c d).map Prod.fst ↔ x ∈ stats.map Prod.fst ∨ x = c := by
  rw [updateStats_keys]
  split
  · rename_i hc
    constructor
    · exact Or.inl
    · rintro (h | rfl)
      · exact h
      · exact hc
  · simp [List.mem_append]

theorem fileLoop_mem_keys :
    ∀ (issues : List Issue) (seen : List String) (stats : List (String × ClauseStat))
      (x : String),
      x ∈ (fileLoop issues seen stats).map Prod.fst ↔
        x ∈ stats.map Prod.fst ∨ (x ≠ "" ∧ x ∉ seen ∧ x ∈ issues.map Issue.clause) := by
  intro issues
  induction issues with
  | nil =>
    intro seen stats x
    simp [fileLoop]
  | cons i is ih =>
    intro seen stats x
    simp only [fileLoop]
    by_cases h1 : i.clause = ""
    · rw [if_pos h1, ih]
      by_cases hx : x = i.clause
      · subst hx
        simp [h1]
      · simp [List.mem_cons, hx]
    · rw [if_neg h1]
      by_cases h2 : i.clause ∈ seen
      · rw [if_pos h2, ih]
        by_cases hx : x = i.clause
        · subst hx
          simp [h2]
        · simp [List.mem_cons, hx]
      · rw [if_neg h2, ih, updateStats_mem_keys]
        by_cases hx : x = i.clause
        · subst hx
          simp [h1, h2, List.mem_cons]
        · constructor
          · rintro ((h | rfl) | h)
            · exact Or.inl h
            · exact absurd rfl hx
            · refine Or.inr ⟨h.1, ?_, List.mem_cons_of_mem _ h.2.2⟩
              intro hs
              exact h.2.1 (List.mem_cons_of_mem _ hs)
          · rintro (h | ⟨hne, hs, hmem⟩)
            · exact Or.inl (Or.inl h)
            · rcases List.mem_cons.mp hmem with heq | hmem2
              · exact absurd heq hx
              · refine Or.inr ⟨hne, ?_, hmem2⟩
                intro hc
                rcases List.mem_cons.mp hc with heq | hmem3
                · exact hx heq
                · exact hs hmem3

theorem buildClauseStats_mem_keys (summary : Summary) (x : String) :
    x ∈ (buildClauseStats summary).map Prod.fst ↔
      x ≠ "" ∧ ∃ e ∈ summary, x ∈ e.2.map Issue.clause := by
  suffices h : ∀ (l : Summary) (stats : List (String × ClauseStat)),
      x ∈ (l.foldl (fun st e => fileLoop e.2 [] st) stats).map Prod.fst ↔
        x ∈ stats.map Prod.fst ∨ (x ≠ "" ∧ ∃ e ∈ l, x ∈ e.2.map Issue.clause) by
    rw [buildClauseStats, h summary []]
    simp
  intro l
  induction l with
  | nil =>
    intro stats
    simp
  | cons e l ih =>
    intro stats
    simp only [List.foldl_cons, ih, fileLoop_mem_keys, List.mem_cons]
    constructor
    · rintro ((h | h) | h)
      · exact Or.inl h
      · exact Or.inr ⟨h.1, e, Or.inl rfl, h.2.2⟩
      · obtain ⟨hne, f, hf, hmem⟩ := h
        exact Or.inr ⟨hne, f, Or.inr hf, hmem⟩
    · rintro (h | ⟨hne, f, (rfl | hmem), hf⟩)
      · exact Or.inl (Or.inl h)
      · exact Or.inl (Or.inr ⟨hne, by simp, hf⟩)
      · exact Or.inr ⟨hne, f, hmem, hf⟩


/-! ## C5: order invariance of the artifact writers -/

/-- The clause column of the data rows is the sorted clause key list. -/
theorem clauseSummaryRows_keys (summary : Summary) :
    (clauseSummaryRows summary).map (fun r => r.1) =
      ((buildClauseStats summary).map Prod.fst).mergeSort strLE := by
  simp only [clauseSummaryRows, List.map_map]
  refine (List.map_congr_left ?_).trans (List.map_id _)
  intro c _
  cases h : (buildClauseStats summary).lookup c <;> simp [h]

/-- The clause and count columns of the data rows, expressed through
`statCount`. -/
theorem clauseSummaryRows_proj (summary : Summary) :
    (clauseSummaryRows summary).map (fun r => (r.1, r.2.1)) =
      (((buildClauseStats summary).map Prod.fst).mergeSort strLE).map
        (fun c => (c, statCount (buildClauseStats summary) c)) := by
  simp only [clauseSummaryRows, List.map_map]
  apply List.map_congr_left
  intro c _
  cases h : (buildClauseStats summary).lookup c <;> simp [statCount_eq_lookup, h]

/-- Dict lookup is stable under reordering the insertions when the keys are
distinct. -/
theorem lookup_eq_of_perm {β : Type} :
    ∀ {l₁ l₂ : List (String × β)}, l₁.Perm l₂ → (l₁.map Prod.fst).Nodup →
      ∀ p, l₁.lookup p = l₂.lookup p := by
  intro l₁ l₂ h
  induction h with
  | nil =>
    intro _ p
    rfl
  | cons x h ih =>
    intro hnd p
    obtain ⟨k, v⟩ := x
    rw [lookup_cons, lookup_cons]
    simp only [List.map_cons, List.nodup_cons] at hnd
    rw [ih hnd.2 p]
  | swap x y l =>
    intro hnd p
    obtain ⟨k1, v1⟩ := x
    obtain ⟨k2, v2⟩ := y
    simp only [List.map_cons, List.nodup_cons, List.mem_cons] at hnd
    rw [lookup_cons, lookup_cons, lookup_cons, lookup_cons]
    by_cases h1 : p = k2
    · subst h1
      have hb : (p == k1) = false := by
        simp only [beq_eq_false_iff_ne, ne_eq]
        intro he
        exact hnd.1 (Or.inl he)
      simp [hb]
    · have hb : (p == k2) = false := by
        simp only [beq_eq_false_iff_ne, ne_eq]
        exact h1
      simp [hb]
  | trans h₁ h₂ ih₁ ih₂ =>
    intro hnd p
    rw [ih₁ hnd p, ih₂ (((h₁.map Prod.fst).nodup_iff).mp hnd) p]

/-- The compliance TXT lines depend only on the summary as a multiset. -/
theorem write_compliance_perm (s₁ s₂ : Summary) (h : s₁.Perm s₂) :
    write_compliance_report s₁ = write_compliance_report s₂ := by
  have hc : ((s₁.filter (fun e => e.2.isEmpty)).map Prod.fst).mergeSort strLE =
      ((s₂.filter (fun e => e.2.isEmpty)).map Prod.fst).mergeSort strLE :=
    mergeSort_strLE_eq_of_perm _ _ ((h.filter _).map _)
  have hn : ((s₁.filter (fun e => !e.2.isEmpty)).map Prod.fst).mergeSort strLE =
      ((s₂.filter (fun e => !e.2.isEmpty)).map Prod.fst).mergeSort strLE :=
    mergeSort_strLE_eq_of_perm _ _ ((h.filter _).map _)
  simp only [write_compliance_report, hc, hn]

/-- The file-summary CSV depends only on the summary as a multiset, given the
distinct dict keys the summary always has. -/
theorem write_file_summary_perm (s₁ s₂ : Summary) (h : s₁.Perm s₂)
    (hnd : (s₁.map Prod.fst).Nodup) :
    write_file_summary_csv s₁ = write_file_summary_csv s₂ := by
  have hcl : ((s₁.map (fun e => e.2.map Issue.clause)).flatten).dedup.mergeSort strLE =
      ((s₂.map (fun e => e.2.map Issue.clause)).flatten).dedup.mergeSort strLE :=
    mergeSort_strLE_eq_of_perm _ _ ((h.map _).flatten.dedup)
  have hkeys : (s₁.map Prod.fst).mergeSort strLE = (s₂.map Prod.fst).mergeSort strLE :=
    mergeSort_strLE_eq_of_perm _ _ (h.map _)
  have hlook : ∀ p, s₁.lookup p = s₂.lookup p := lookup_eq_of_perm h hnd
  simp only [write_file_summary_csv, hcl, hkeys]
  congr 1
  apply List.map_congr_left
  intro p _
  rw [hlook p]

/-- The clause and count columns of the clause-summary CSV depend only on the
summary as a multiset. -/
theorem clauseRows_proj_perm (s₁ s₂ : Summary) (h : s₁.Perm s₂) :
    (clauseSummaryRows s₁).map (fun r => (r.1, r.2.1)) =
      (clauseSummaryRows s₂).map (fun r => (r.1, r.2.1)) := by
  rw [clauseSummaryRows_proj, clauseSummaryRows_proj]
  have hkeys : ((buildClauseStats s₁).map Prod.fst).mergeSort strLE =
      ((buildClauseStats s₂).map Prod.fst).mergeSort strLE := by
    apply mergeSort_strLE_eq_of_perm
    refine (List.perm_ext_iff_of_nodup (buildClauseStats_keys_nodup s₁)
      (buildClauseStats_keys_nodup s₂)).mpr ?_
    intro a
    rw [buildClauseStats_mem_keys, buildClauseStats_mem_keys]
    constructor
    · rintro ⟨hne, e, he, hmem⟩
      exact ⟨hne, e, h.mem_iff.mp he, hmem⟩
    · rintro ⟨hne, e, he, hmem⟩
      exact ⟨hne, e, h.mem_iff.mpr he, hmem⟩
  rw [hkeys]
  apply List.map_congr_left
  intro c _
  rw [buildClauseStats_statCount, buildClauseStats_statCount, h.countP_eq]

/-- C5 counterexample: the same two validator documents, whose files report
clause 7.1 with different descriptions, aggregated in the two possible thread
completion orders, produce clause-summary CSVs that differ in the Description
cell — the artifact is not a function of the document set alone. -/
theorem C5_counterexample :
    summaryAB.Perm summaryBA ∧
    write_clause_summary_csv summaryAB ≠ write_clause_summary_csv summaryBA := by
  constructor
  · exact List.Perm.swap _ _ _
  · have hA : clauseSummaryRows summaryAB = [("7.1", 2, "first text")] := by
      rw [show clauseSummaryRows summaryAB = (List.mergeSort ["7.1"] strLE).map (fun c =>
          match (buildClauseStats summaryAB).lookup c with
          | some s => (c, s.count, s.description)
          | none => (c, 0, "")) from rfl]
      rw [List.mergeSort_singleton]
      rfl
    have hB : clauseSummaryRows summaryBA = [("7.1", 2, "second text")] := by
      rw [show clauseSummaryRows summaryBA = (List.mergeSort ["7.1"] strLE).map (fun c =>
          match (buildClauseStats summaryBA).lookup c with
          | some s => (c, s.count, s.description)
          | none => (c, 0, "")) from rfl]
      rw [List.mergeSort_singleton]
      rfl
    intro hcsv
    rw [show write_clause_summary_csv summaryAB = ["Clause", "Count", "Description"] ::
        (clauseSummaryRows summaryAB).map (fun r => [r.1, toString r.2.1, r.2.2]) from rfl,
      show write_clause_summary_csv summaryBA = ["Clause", "Count", "Description"] ::
        (clauseSummaryRows summaryBA).map (fun r => [r.1, toString r.2.1, r.2.2]) from rfl,
      hA, hB] at hcsv
    exact absurd hcsv (by decide)

/-- C5 amended: rebuilding the artifacts from the same document set in any
two parse orders yields an identical compliance TXT, an identical
file-summary CSV, and clause-summary rows with identical Clause and Count
columns; only the Description column of the clause-summary CSV can depend on
the completion order of the parsing threads, when distinct files report
different descriptions for one clause. -/
theorem C5_order_invariance (s₁ s₂ : Summary) (h : s₁.Perm s₂)
    (hnd : (s₁.map Prod.fst).Nodup) :
    write_compliance_report s₁ = write_compliance_report s₂ ∧
    write_file_summary_csv s₁ = write_file_summary_csv s₂ ∧
    (clauseSummaryRows s₁).map (fun r => (r.1, r.2.1)) =
      (clauseSummaryRows s₂).map (fun r => (r.1, r.2.1)) :=
  ⟨write_compliance_perm s₁ s₂ h, write_file_summary_perm s₁ s₂ h hnd,
   clauseRows_proj_perm s₁ s₂ h⟩

/-- C5 witness: the amended statement applied to the two concrete completion
orders of the two-file document set. -/
theorem C5_witness :
    summaryAB.Perm summaryBA ∧ (summaryAB.map Prod.fst).Nodup ∧
    (write_compliance_report summaryAB = write_compliance_report summaryBA ∧
     write_file_summary_csv summaryAB = write_file_summary_csv summaryBA ∧
     (clauseSummaryRows summaryAB).map (fun r => (r.1, r.2.1)) =
       (clauseSummaryRows summaryBA).map (fun r => (r.1, r.2.1))) :=
  ⟨List.Perm.swap _ _ _, by decide,
   C5_order_invariance summaryAB summaryBA (List.Perm.swap _ _ _) (by decide)⟩

/-! ## C7: clause-summary CSV shape -/

/-- C7: for every summary with distinct file keys, the clause-summary CSV has
the header row Clause, Count, Description; its data rows have pairwise
strictly ascending clause ids; a clause has a row exactly when it is nonempty
and violated in some file; and each row counts the files whose (deduplicated)
issue list contains that clause — one per file however often the clause
repeats within the file. -/
theorem C7_clause_summary (summary : Summary) (_hnd : (summary.map Prod.fst).Nodup) :
    (write_clause_summary_csv summary).head? = some ["Clause", "Count", "Description"] ∧
    ((clauseSummaryRows summary).map (fun r => r.1)).Pairwise
      (fun a b => strLE a b ∧ a ≠ b) ∧
    (∀ c, c ∈ (clauseSummaryRows summary).map (fun r => r.1) ↔
      (c ≠ "" ∧ ∃ e ∈ summary, c ∈ e.2.map Issue.clause)) ∧
    ∀ r ∈ clauseSummaryRows summary,
      r.2.1 = (summary.filter (fun e => decide (r.1 ∈ e.2.map Issue.clause))).length := by
  refine ⟨rfl, ?_, ?_, ?_⟩
  · rw [clauseSummaryRows_keys]
    have hs := List.sorted_mergeSort strLE_trans strLE_total
      ((buildClauseStats summary).map Prod.fst)
    have hnd2 : (((buildClauseStats summary).map Prod.fst).mergeSort strLE).Nodup :=
      ((List.mergeSort_perm _ _).nodup_iff).mpr (buildClauseStats_keys_nodup summary)
    exact hs.and hnd2
  · intro c
    rw [clauseSummaryRows_keys, List.mem_mergeSort, buildClauseStats_mem_keys]
  · intro r hr
    simp only [clauseSummaryRows] at hr
    obtain ⟨c, hc, hrc⟩ := List.mem_map.mp hr
    have hck : c ∈ (buildClauseStats summary).map Prod.fst := List.mem_mergeSort.mp hc
    have hcne : c ≠ "" := ((buildClauseStats_mem_keys summary c).mp hck).1
    cases hlk : (buildClauseStats summary).lookup c with
    | none =>
      exfalso
      rw [List.lookup_eq_none_iff] at hlk
      obtain ⟨a, ha, hac⟩ := List.mem_map.mp hck
      have hba := hlk a ha
      simp [hac] at hba
    | some s =>
      rw [← hrc]
      simp only [hlk]
      have hsc : statCount (buildClauseStats summary) c = s.count := by
        rw [statCount_eq_lookup, hlk]
        rfl
      have hcp : ∀ e ∈ summary,
          (decide (c ≠ "" ∧ c ∈ e.2.map Issue.clause)) = true ↔
          (decide (c ∈ e.2.map Issue.clause)) = true := by
        intro e _
        simp [hcne]
      calc s.count = statCount (buildClauseStats summary) c := hsc.symm
        _ = summary.countP (fun e => decide (c ≠ "" ∧ c ∈ e.2.map Issue.clause)) :=
            buildClauseStats_statCount summary c
        _ = summary.countP (fun e => decide (c ∈ e.2.map Issue.clause)) :=
            List.countP_congr hcp
        _ = (summary.filter (fun e => decide (c ∈ e.2.map Issue.clause))).length :=
            List.countP_eq_length_filter _ _

/-- C7 witness: the statement applied to a concrete one-file summary with a
repeated clause and an empty clause. -/
theorem C7_witness :
    (summaryW.map Prod.fst).Nodup ∧
    ((write_clause_summary_csv summaryW).head? = some ["Clause", "Count", "Description"] ∧
     ((clauseSummaryRows summaryW).map (fun r => r.1)).Pairwise
       (fun a b => strLE a b ∧ a ≠ b) ∧
     (∀ c, c ∈ (clauseSummaryRows summaryW).map (fun r => r.1) ↔
       (c ≠ "" ∧ ∃ e ∈ summaryW, c ∈ e.2.map Issue.clause)) ∧
     ∀ r ∈ clauseSummaryRows summaryW,
       r.2.1 = (summaryW.filter (fun e => decide (r.1 ∈ e.2.map Issue.clause))).length) :=
  ⟨by decide, C7_clause_summary summaryW (by decide)⟩

end PdfRemediation
